import Mathlib

/-!
# scrubpcap: trimming capture records to their protocol headers

A shallow embedding of `main.go` and `sll.go`.

The program is written against three libraries whose code is not part of the
repository: `encoding/binary`, `gopacket` (layers, packets, serialize buffers)
and `pcapgo` (the capture-file writer).  The embedding fixes only what the
program itself relies on:

* `binary.BigEndian.PutUint16` and `Uint16` with their index checks, and Go's
  slice expressions with their bounds checks (a failed check is a `Panic`);
* a decoded layer is either a `*layers.LinuxSLL` or some other library layer,
  which carries its layer type, its header bytes, and its own `SerializeTo`
  when it has one;
* the decoder behind `gopacket.NewPacket` and the writer's ability to refuse a
  record are parameters.

Bytes are natural numbers; every conversion to `byte` or `uint16` that the
source performs is written as an explicit remainder.
-/

namespace Scrubpcap

/-! ## Data model -/

/-- A byte string; each element stands for one `byte`. -/
abbrev Bytes := List Nat

/-- The layer types of `gopacket/layers` the program can meet. The program
itself names three of them: `LayerTypeLinuxSLL`, `LayerTypeTCP`, `LayerTypeUDP`. -/
inductive LayerType where
  | LinuxSLL
  | Ethernet
  | IPv4
  | IPv6
  | ARP
  | ICMPv4
  | TCP
  | UDP
  | Payload
  | DecodeFailure
  | Other (id : Nat)
  deriving DecidableEq, Repr

/-- The struct `layers.BaseLayer`: the bytes of this layer in the packet
(`LayerContents`) and the bytes that follow it (`LayerPayload`). -/
structure BaseLayer where
  Contents : Bytes
  Payload : Bytes
  deriving DecidableEq, Repr

/-- The struct `layers.LinuxSLL`, the decoded cooked-capture header. The numeric
fields are `uint16` in the source. -/
structure LinuxSLL where
  base : BaseLayer
  PacketType : Nat
  AddrLen : Nat
  Addr : Bytes
  EthernetType : Nat
  AddrType : Nat
  deriving DecidableEq, Repr

/-- The adapter of `sll.go`: `type SerializableLinuxSLL struct { layers.LinuxSLL }`. -/
structure SerializableLinuxSLL where
  LinuxSLL : LinuxSLL
  deriving DecidableEq, Repr

/-- Any decoded layer other than `*layers.LinuxSLL`. `SerializeTo` is `none`
when the layer does not implement `gopacket.SerializableLayer`; otherwise it is
the layer's own encoder under the options `trimPacket` passes, as a map from
the buffer's bytes before the call to its bytes after it, or an error message. -/
structure LibLayer where
  layerType : LayerType
  notSLL : layerType ≠ LayerType.LinuxSLL
  base : BaseLayer
  SerializeTo : Option (Bytes → Except String Bytes)

/-- An element of `packet.Layers()`. -/
inductive Layer where
  | linuxSLL (l : LinuxSLL)
  | lib (l : LibLayer)

/-- An element of `[]gopacket.SerializableLayer` as `filterLayers` builds it:
the adapter, or a library layer together with the encoder it implements. -/
inductive SerializableLayer where
  | sll (l : SerializableLinuxSLL)
  | lib (l : LibLayer) (enc : Bytes → Except String Bytes)

/-- The method `LayerType()` of a decoded layer. -/
def Layer.LayerType : Layer → LayerType
  | .linuxSLL _ => LayerType.LinuxSLL
  | .lib l => l.layerType

/-- The method `LayerType()` of a retained layer; the adapter inherits it from
the embedded `layers.LinuxSLL`. -/
def SerializableLayer.LayerType : SerializableLayer → LayerType
  | .sll _ => LayerType.LinuxSLL
  | .lib l _ => l.layerType

/-- The method `LayerContents()`: the bytes of the layer as decoded. -/
def Layer.LayerContents : Layer → Bytes
  | .linuxSLL l => l.base.Contents
  | .lib l => l.base.Contents

/-- Error values the program returns. -/
inductive Err where
  /-- The value of `fmt.Errorf("error, could not serialize [%v]\n", l)`. -/
  | couldNotSerialize (l : Layer)
  /-- An error handed up from a library call. -/
  | library (msg : String)

/-- Run-time panics of the Go code. -/
inductive Panic where
  | sliceBoundsOutOfRange
  | indexOutOfRange
  deriving DecidableEq, Repr

/-- Why a call did not produce its value: it returned an error, or it panicked. -/
inductive Failure where
  | error (e : Err)
  | panic (p : Panic)

/-- The struct `gopacket.CaptureInfo`. `Timestamp` 0 stands for the zero `time.Time`. -/
structure CaptureInfo where
  Timestamp : Int
  CaptureLength : Int
  Length : Int
  InterfaceIndex : Int
  deriving DecidableEq, Repr

/-- The struct `gopacket.PacketMetadata` (its `Truncated` flag is never read). -/
structure PacketMetadata where
  CaptureInfo : CaptureInfo
  deriving DecidableEq, Repr

/-- A `gopacket.Packet`: `Layers()`, `Data()` and `Metadata()`. -/
structure Packet where
  layers : List Layer
  data : Bytes
  metadata : PacketMetadata

/-! ## sll.go -/

/-- A Go byte slice: its elements and its capacity. -/
structure Slice where
  bytes : Bytes
  cap : Nat
  deriving DecidableEq, Repr

/-- The slice expression `bytes[lo:hi]`: the bounds check of Go, then the
window (offset and length) it denotes. -/
def Slice.window (s : Slice) (lo hi : Nat) : Except Panic (Nat × Nat) :=
  if lo ≤ hi ∧ hi ≤ s.cap then .ok (lo, hi - lo) else .error Panic.sliceBoundsOutOfRange

/-- The call `binary.BigEndian.Uint16(b)`: `_ = b[1]; uint16(b[1]) | uint16(b[0])<<8`. -/
def Uint16 (b : Bytes) : Except Panic Nat :=
  match b with
  | b0 :: b1 :: _ => .ok ((b1 + b0 * 256) % 65536)
  | _ => .error Panic.indexOutOfRange

/-- The call `binary.BigEndian.PutUint16(b, v)` on a window of `s`:
`_ = b[1]; b[0] = byte(v >> 8); b[1] = byte(v)`. -/
def PutUint16 (s : Slice) (w : Nat × Nat) (v : Nat) : Except Panic Slice :=
  if 2 ≤ w.2 then
    .ok { s with bytes := (s.bytes.set w.1 (v / 256 % 256)).set (w.1 + 1) (v % 256) }
  else .error Panic.indexOutOfRange

/-- The statements of `SerializeTo` after `PrependBytes` has succeeded, in
source order, on the 16 bytes it returned. Arguments are evaluated left to
right: the slice expression, then `Uint16(sll.Addr)`, then the call. -/
def SerializableLinuxSLL.fill (sll : SerializableLinuxSLL) (bytes : Slice) : Except Panic Slice := do
  let bytes ← PutUint16 bytes (0, bytes.bytes.length) 0
  let w ← bytes.window 0 2
  let bytes ← PutUint16 bytes w (sll.LinuxSLL.PacketType % 65536)
  let w ← bytes.window 2 4
  let bytes ← PutUint16 bytes w sll.LinuxSLL.AddrType
  let w ← bytes.window 4 6
  let bytes ← PutUint16 bytes w sll.LinuxSLL.AddrLen
  let w ← bytes.window 6 ((sll.LinuxSLL.AddrLen + 6) % 65536)
  let v ← Uint16 sll.LinuxSLL.Addr
  let bytes ← PutUint16 bytes w v
  let w ← bytes.window 14 16
  let bytes ← PutUint16 bytes w (sll.LinuxSLL.EthernetType % 65536)
  pure bytes

/-- The method `(*SerializableLinuxSLL).SerializeTo`, as a function of what
`b.PrependBytes(16)` returned; the result is the 16 bytes after the writes. -/
def SerializableLinuxSLL.SerializeTo (sll : SerializableLinuxSLL)
    (prepended : Except String Slice) : Except Failure Bytes :=
  match prepended with
  | .error msg => .error (Failure.error (Err.library msg))
  | .ok bytes =>
    match sll.fill bytes with
    | .error p => .error (Failure.panic p)
    | .ok bytes => .ok bytes.bytes

/-- What `PrependBytes(num)` returns on the buffer of `gopacket.NewSerializeBuffer()`
holding `b`: freshly allocated room, zero-filled, in front of `b`. -/
def PrependBytes (b : Bytes) (num : Nat) : Except String Slice :=
  .ok { bytes := List.replicate num 0, cap := num + b.length }

/-! ## main.go -/

/-- Lines 37–44 of `filterLayers`: the cooked-capture layer is replaced by its
adapter, then the layer is asserted to be a `gopacket.SerializableLayer`. -/
def assertSerializable : Layer → Option SerializableLayer
  | .linuxSLL l => some (.sll { LinuxSLL := l })
  | .lib l =>
    match l.SerializeTo with
    | some enc => some (.lib l enc)
    | none => none

/-- The test of line 52. -/
def isTransport (t : LayerType) : Bool :=
  t == LayerType.TCP || t == LayerType.UDP

/-- The loop of `filterLayers` over the remaining layers, `newlayers` being
what has been appended so far. -/
def filterLoop : List Layer → List SerializableLayer → List SerializableLayer × Option Err
  | [], newlayers => (newlayers, none)
  | l :: rest, newlayers =>
    match assertSerializable l with
    | none => (newlayers, some (Err.couldNotSerialize l))
    | some newlayer =>
      if isTransport l.LayerType then (newlayers ++ [newlayer], none)
      else filterLoop rest (newlayers ++ [newlayer])

/-- The function `filterLayers`: the retained layers and the error, if any. -/
def filterLayers (packet : Packet) : List SerializableLayer × Option Err :=
  filterLoop packet.layers []

/-- The method `SerializeTo` of a retained layer on the buffer holding `b`;
the result is the buffer's bytes afterwards. -/
def SerializableLayer.SerializeTo : SerializableLayer → Bytes → Except Failure Bytes
  | .sll a, b =>
    match a.SerializeTo (PrependBytes b 16) with
    | .ok hdr => .ok (hdr ++ b)
    | .error f => .error f
  | .lib _ enc, b =>
    match enc b with
    | .ok b1 => .ok b1
    | .error msg => .error (Failure.error (Err.library msg))

/-- The call `gopacket.SerializeLayers` on a cleared buffer: the layers are
written last to first, each in front of what is already there, and the first
error stops it. The result is `Bytes()`. -/
def SerializeLayers : List SerializableLayer → Except Failure Bytes
  | [] => .ok []
  | l :: rest =>
    match SerializeLayers rest with
    | .ok b => l.SerializeTo b
    | .error f => .error f

/-- The library decoder behind `gopacket.NewPacket(data, first, ...)`. -/
abbrev Decoder := Bytes → LayerType → List Layer

/-- The capture info of a packet made by `gopacket.NewPacket`: all zero
("it defaults to being 0'd out for new packets", main.go line 99). -/
def CaptureInfo.zero : CaptureInfo :=
  { Timestamp := 0, CaptureLength := 0, Length := 0, InterfaceIndex := 0 }

/-- The call `gopacket.NewPacket(data, first, gopacket.NoCopy)`. -/
def NewPacket (decode : Decoder) (data : Bytes) (first : LayerType) : Packet :=
  { layers := decode data first, data := data, metadata := { CaptureInfo := CaptureInfo.zero } }

/-- The function `trimPacket`. -/
def trimPacket (decode : Decoder) (packet : Packet) : Except Failure Packet :=
  match filterLayers packet with
  | (_, some err) => .error (Failure.error err)
  | (trimmedLayers, none) =>
    match SerializeLayers trimmedLayers with
    | .error f => .error f
    | .ok newBuffer =>
      match trimmedLayers with
      | [] => .error (Failure.panic Panic.indexOutOfRange)
      | first :: _ => .ok (NewPacket decode newBuffer first.LayerType)

/-- One record of the output, as the pair of arguments handed to `WritePacket`.
How the writer lays it out in the file is its own business and is not modelled
(`pcapgo` stores the current time in place of a zero `Timestamp`). -/
structure Record where
  ci : CaptureInfo
  data : Bytes
  deriving DecidableEq, Repr

/-- The `pcapgo.Writer`: the records it has accepted so far, each as it was
handed to `WritePacket`, and the writer's verdict on a further record (`some msg`
when `WritePacket` returns an error). -/
structure Writer where
  records : List Record
  refuse : List Record → CaptureInfo → Bytes → Option String

/-- The call `writer.WritePacket(ci, data)`. -/
def Writer.WritePacket (w : Writer) (ci : CaptureInfo) (data : Bytes) : Writer × Option Err :=
  match w.refuse w.records ci data with
  | some msg => (w, some (Err.library msg))
  | none => ({ w with records := w.records ++ [{ ci := ci, data := data }] }, none)

/-- The function `writeTrimmedPacket`. -/
def writeTrimmedPacket (packet : Packet) (originalLength : Int) (writer : Writer) :
    Writer × Option Err :=
  let ci := packet.metadata.CaptureInfo
  let ci := { ci with CaptureLength := (packet.data.length : Int) }
  let ci := { ci with Length := originalLength }
  writer.WritePacket ci packet.data

/-- The loop of `main` (lines 149–161) over the packets of the source. The
second component is `none` when the loop ran to the end, and the failure the
process died of otherwise (`panic(err)`, or a panic raised further down). -/
def mainLoop (decode : Decoder) : List Packet → Writer → Writer × Option Failure
  | [], w => (w, none)
  | packet :: rest, w =>
    match trimPacket decode packet with
    | .error f => (w, some f)
    | .ok trimmedPacket =>
      match writeTrimmedPacket trimmedPacket packet.metadata.CaptureInfo.Length w with
      | (w1, some err) => (w1, some (Failure.error err))
      | (w1, none) => mainLoop decode rest w1


/-! ## The cooked-capture layout in the words of the specification -/

/-- Two bytes, big-endian, of a 16-bit value. -/
def be16 (v : Nat) : Bytes := [v / 256 % 256, v % 256]

/-- The 16-byte layout `[P:2][A:2][L:2][D, zero-padded to 8][T:2]`. -/
def sllLayout (P A L : Nat) (D : Bytes) (T : Nat) : Bytes :=
  be16 P ++ be16 A ++ be16 L ++ (D ++ List.replicate 8 0).take 8 ++ be16 T

/-- The big-endian value of the two bytes of `data` at offset `i`. -/
def readBE16 (data : Bytes) (i : Nat) : Nat :=
  data.getD i 0 * 256 + data.getD (i + 1) 0

/-- The reading of a cooked-capture header: packet type from bytes 0-1, address
type from bytes 2-3, address length from bytes 4-5, the address from byte 6 on
for as many bytes as the address length says, protocol type from bytes 14-15.
There is no reading when fewer than 16 bytes are present or the address does
not fit in the data. -/
def decodeLinuxSLL (data : Bytes) : Option LinuxSLL :=
  if data.length < 16 then none
  else
    let stop := (readBE16 data 4 + 6) % 65536
    if 6 ≤ stop ∧ stop ≤ data.length then
      some { base := { Contents := data.take 16, Payload := data.drop 16 },
             PacketType := readBE16 data 0,
             AddrType := readBE16 data 2,
             AddrLen := readBE16 data 4,
             Addr := (data.drop 6).take (stop - 6),
             EthernetType := readBE16 data 14 }
    else none


/-! ## The record written for a packet -/

/-- The record `main` writes for an input packet whose trimmed form is `p`. -/
def recordOf (packet p : Packet) : Record :=
  { ci := { Timestamp := p.metadata.CaptureInfo.Timestamp,
            CaptureLength := (p.data.length : Int),
            Length := packet.metadata.CaptureInfo.Length,
            InterfaceIndex := p.metadata.CaptureInfo.InterfaceIndex },
    data := p.data }


/-! ## Sample packets -/

/-- A library encoder that writes the layer's bytes as they were decoded. -/
def writesBack (hdr : Bytes) : Bytes → Except String Bytes :=
  fun b => .ok (hdr ++ b)

/-- The method `layers.Ethernet.SerializeTo` of the library under the options of
`trimPacket`: the 14 header bytes go in front of the buffer, and a buffer that
is then shorter than 60 bytes is padded with zero bytes at its end up to 60. -/
def ethernetSerializeTo (hdr : Bytes) : Bytes → Except String Bytes :=
  fun b => .ok (hdr ++ b ++ List.replicate (60 - (hdr ++ b).length) 0)

/-- An Ethernet header: destination, source, EtherType IPv4. -/
def ethHdr : Bytes := [0, 17, 34, 51, 68, 85, 102, 119, 136, 153, 170, 187, 8, 0]

/-- An IPv4 header of 20 bytes, total length 1500, protocol TCP. -/
def ipHdr : Bytes := [69, 0, 5, 220, 0, 1, 64, 0, 64, 6, 0, 0, 10, 0, 0, 1, 10, 0, 0, 2]

/-- A TCP header of 20 bytes, data offset 5. -/
def tcpHdr : Bytes := [0, 80, 192, 0, 0, 0, 0, 1, 0, 0, 0, 2, 80, 16, 255, 255, 0, 0, 0, 0]

/-- A payload of 1460 bytes. -/
def payload1460 : Bytes := List.replicate 1460 65

/-- A cooked-capture header: packet type 0, address type 1, a six-byte address,
two bytes of padding, protocol IPv4. -/
def sllHdr : Bytes := [0, 0, 0, 1, 0, 6, 0, 17, 34, 51, 68, 85, 0, 0, 8, 0]

/-- The Ethernet layer of the sample packet. -/
def exEthernet : LibLayer :=
  { layerType := LayerType.Ethernet, notSLL := by decide,
    base := { Contents := ethHdr, Payload := ipHdr ++ tcpHdr ++ payload1460 },
    SerializeTo := some (ethernetSerializeTo ethHdr) }

/-- The IPv4 layer of the sample packets. -/
def exIPv4 : LibLayer :=
  { layerType := LayerType.IPv4, notSLL := by decide,
    base := { Contents := ipHdr, Payload := tcpHdr ++ payload1460 },
    SerializeTo := some (writesBack ipHdr) }

/-- The TCP layer of the sample packets. -/
def exTCP : LibLayer :=
  { layerType := LayerType.TCP, notSLL := by decide,
    base := { Contents := tcpHdr, Payload := payload1460 },
    SerializeTo := some (writesBack tcpHdr) }

/-- The application payload of the sample packets. -/
def exPayload : LibLayer :=
  { layerType := LayerType.Payload, notSLL := by decide,
    base := { Contents := payload1460, Payload := [] },
    SerializeTo := some (writesBack payload1460) }

/-- A layer that stands for a decoding failure; it has no encoder. -/
def exFailure : LibLayer :=
  { layerType := LayerType.DecodeFailure, notSLL := by decide,
    base := { Contents := [1, 2, 3], Payload := [] },
    SerializeTo := none }

/-- An ARP layer with an encoder. -/
def exARP : LibLayer :=
  { layerType := LayerType.ARP, notSLL := by decide,
    base := { Contents := List.replicate 28 0, Payload := [] },
    SerializeTo := some (writesBack (List.replicate 28 0)) }

/-- The decoded cooked-capture header `sllHdr`. -/
def exSLL : LinuxSLL :=
  { base := { Contents := sllHdr, Payload := ipHdr ++ tcpHdr ++ payload1460 },
    PacketType := 0, AddrType := 1, AddrLen := 6, Addr := [0, 17, 34, 51, 68, 85],
    EthernetType := 2048 }

/-- The capture info of the sample input records. -/
def exInfo : CaptureInfo :=
  { Timestamp := 1700000000, CaptureLength := 1514, Length := 1514, InterfaceIndex := 0 }

/-- Ethernet / IPv4 / TCP / 1460 bytes of payload, 1514 bytes on the wire. -/
def exPacket : Packet :=
  { layers := [.lib exEthernet, .lib exIPv4, .lib exTCP, .lib exPayload],
    data := ethHdr ++ ipHdr ++ tcpHdr ++ payload1460,
    metadata := { CaptureInfo := exInfo } }

/-- Ethernet / IPv4 / TCP followed by a layer that cannot be encoded. -/
def exPacketJunk : Packet :=
  { layers := [.lib exEthernet, .lib exIPv4, .lib exTCP, .lib exFailure],
    data := ethHdr ++ ipHdr ++ tcpHdr ++ [1, 2, 3],
    metadata := { CaptureInfo := exInfo } }

/-- Ethernet / ARP: no transport layer. -/
def exPacketARP : Packet :=
  { layers := [.lib exEthernet, .lib exARP],
    data := ethHdr ++ List.replicate 28 0,
    metadata := { CaptureInfo := exInfo } }

/-- Ethernet followed by a layer that cannot be encoded, then TCP. -/
def exPacketBroken : Packet :=
  { layers := [.lib exEthernet, .lib exFailure, .lib exTCP],
    data := ethHdr ++ [1, 2, 3] ++ tcpHdr,
    metadata := { CaptureInfo := exInfo } }

/-- Cooked capture / IPv4 / TCP / 1460 bytes of payload. -/
def exCooked : Packet :=
  { layers := [.linuxSLL exSLL, .lib exIPv4, .lib exTCP, .lib exPayload],
    data := sllHdr ++ ipHdr ++ tcpHdr ++ payload1460,
    metadata := { CaptureInfo := { exInfo with CaptureLength := 1516, Length := 1516 } } }

/-- A packet without any layer. -/
def exEmpty : Packet :=
  { layers := [], data := [], metadata := { CaptureInfo := exInfo } }

/-- A decoder that finds no layer; enough where the layers of the new packet
are not looked at. -/
def noDecode : Decoder := fun _ _ => []

/-- A writer with nothing written that accepts every record. -/
def exWriter : Writer :=
  { records := [], refuse := fun _ _ _ => none }


/-! ## Reading an output record back -/

/-- The relation `Rereads ls ls2`: `ls2` is what a decoder makes of the bytes
the retained layers `ls` were serialized to, layer for layer. A library layer
comes back as a library layer of the same type with the same encoder; the
adapter comes back as the cooked-capture layer read from the bytes that were
written from its header on. -/
inductive Rereads : List SerializableLayer → List Layer → Prop where
  | nil : Rereads [] []
  | lib (l l2 : LibLayer) (enc : Bytes → Except String Bytes)
      (ls : List SerializableLayer) (ls2 : List Layer) :
      l2.layerType = l.layerType → l2.SerializeTo = some enc → Rereads ls ls2 →
      Rereads (SerializableLayer.lib l enc :: ls) (Layer.lib l2 :: ls2)
  | sll (a : SerializableLinuxSLL) (s2 : LinuxSLL) (data : Bytes)
      (ls : List SerializableLayer) (ls2 : List Layer) :
      SerializeLayers (SerializableLayer.sll a :: ls) = .ok data →
      decodeLinuxSLL data = some s2 → Rereads ls ls2 →
      Rereads (SerializableLayer.sll a :: ls) (Layer.linuxSLL s2 :: ls2)

/-- No layer type of the list but the last is TCP or UDP. -/
def stopsOnlyAtEnd : List LayerType → Bool
  | [] => true
  | [_] => true
  | t :: rest => !isTransport t && stopsOnlyAtEnd rest

/-- The link type `main` declares in the header of every output file,
`w.WriteFileHeader(^uint32(0), layers.LinkTypeLinuxSLL)` (line 147), whatever
the link type of the input was. -/
def outputLinkType : LayerType := LayerType.LinuxSLL

/-- The packets the packet source of line 134 yields for a capture file: every
record decoded at the link type of the file header, with its capture info. -/
def readCapture (decode : Decoder) (linkType : LayerType) (records : List Record) :
    List Packet :=
  records.map fun r =>
    { layers := decode r.data linkType, data := r.data, metadata := { CaptureInfo := r.ci } }

/-- The layer the library puts in a packet where decoding fails: it holds the
bytes that could not be decoded and has no `SerializeTo`. -/
def decodeFailure (data : Bytes) : LibLayer :=
  { layerType := LayerType.DecodeFailure, notSLL := by decide,
    base := { Contents := data, Payload := [] },
    SerializeTo := none }

/-- The library's decoding at the cooked-capture link type: the header as
`decodeLinuxSLL` reads it, then what `next` makes of the bytes after it for the
protocol type of the header; where the header cannot be read, the packet holds
a decoding failure and nothing else. -/
def decodeCooked (next : Nat → Bytes → List Layer) (data : Bytes) : List Layer :=
  match decodeLinuxSLL data with
  | some s => Layer.linuxSLL s :: next s.EthernetType (data.drop 16)
  | none => [Layer.lib (decodeFailure data)]

/-- A decoder that decodes the cooked-capture link type as `decodeCooked` does
and every other first layer as `others` does. -/
def cookedDecoder (others : Decoder) (next : Nat → Bytes → List Layer) : Decoder :=
  fun data first =>
    if first = LayerType.LinuxSLL then decodeCooked next data else others data first

/-- What a decoder makes of the 40 bytes after the cooked-capture header of the
sample once the payload is gone: the IPv4 and the TCP header. -/
def exNext : Nat → Bytes → List Layer :=
  fun _ _ =>
    [.lib { exIPv4 with base := { Contents := ipHdr, Payload := tcpHdr } },
     .lib { exTCP with base := { Contents := tcpHdr, Payload := [] } }]

/-- A decoder that reads the output record of the cooked-capture sample. -/
def exDecode : Decoder := cookedDecoder noDecode exNext

/-! ## Further samples and views -/

/-- A cooked-capture header with a one-byte address. -/
def exSLLShort : LinuxSLL :=
  { base := { Contents := [0, 0, 0, 1, 0, 1, 7, 0, 0, 0, 0, 0, 0, 0, 8, 0], Payload := [] },
    PacketType := 0, AddrType := 1, AddrLen := 1, Addr := [7], EthernetType := 2048 }

/-- A cooked-capture header without address. -/
def exSLLNoAddr : LinuxSLL :=
  { base := { Contents := [0, 0, 3, 4, 0, 0, 0, 0, 0, 0, 0, 0, 0, 0, 8, 0], Payload := [] },
    PacketType := 0, AddrType := 772, AddrLen := 0, Addr := [], EthernetType := 2048 }

/-- The decoded layer a retained layer stands for: the adapter wraps the
cooked-capture layer it was made of, a library layer is itself. -/
def SerializableLayer.source : SerializableLayer → Layer
  | .sll a => Layer.linuxSLL a.LinuxSLL
  | .lib l _ => Layer.lib l

/-! # Theorems -/


/-! ## The Boundary Selector -/

/-- What the loop returns from an accumulator is the accumulator followed by
what it returns from the empty one. -/
theorem filterLoop_acc (ls : List Layer) (acc : List SerializableLayer) :
    filterLoop ls acc = (acc ++ (filterLoop ls []).1, (filterLoop ls []).2) := by
  induction ls generalizing acc with
  | nil => simp [filterLoop]
  | cons l rest ih =>
    cases h : assertSerializable l with
    | none => simp [filterLoop, h]
    | some s =>
      by_cases ht : isTransport l.LayerType = true
      · simp [filterLoop, h, ht]
      · simp only [filterLoop, h, ht, if_false, List.nil_append]
        rw [ih (acc ++ [s]), ih [s]]
        simp

/-- A run of encodable layers without a transport layer is retained whole, and
the loop goes on with what follows it. -/
theorem filterLoop_append (pre rest : List Layer) (acc : List SerializableLayer)
    (hpre : ∀ l ∈ pre, isTransport l.LayerType = false)
    (henc : ∀ l ∈ pre, (assertSerializable l).isSome = true) :
    ∃ kept : List SerializableLayer,
      kept.map some = pre.map assertSerializable ∧
      filterLoop (pre ++ rest) acc = filterLoop rest (acc ++ kept) := by
  induction pre generalizing acc with
  | nil => exact ⟨[], by simp⟩
  | cons l pre ih =>
    have hl : isTransport l.LayerType = false := hpre l (List.mem_cons_self _ _)
    obtain ⟨s, hs⟩ := Option.isSome_iff_exists.mp (henc l (List.mem_cons_self _ _))
    obtain ⟨kept, hk, hrun⟩ := ih (acc ++ [s])
      (fun x hx => hpre x (List.mem_cons_of_mem _ hx))
      (fun x hx => henc x (List.mem_cons_of_mem _ hx))
    refine ⟨s :: kept, by simp [hs, hk], ?_⟩
    simp [filterLoop, hs, hl, hrun]


/-- The test of line 52 holds exactly for the layer types TCP and UDP. -/
theorem isTransport_iff (t : LayerType) :
    isTransport t = true ↔ t = LayerType.TCP ∨ t = LayerType.UDP := by
  simp [isTransport]

/-- The test of line 52 fails exactly for the layer types other than TCP and UDP. -/
theorem isTransport_false_iff (t : LayerType) :
    isTransport t = false ↔ t ≠ LayerType.TCP ∧ t ≠ LayerType.UDP := by
  simp [isTransport]

/-- C1. When the layers of a packet are `pre`, then a TCP or UDP layer `t`,
then `post`, where no layer of `pre` is TCP or UDP and every layer of `pre` and
`t` itself is encodable, `filterLayers` returns no error and exactly the layers
`pre` and `t` in that order (the cooked-capture layer as its adapter), whatever
`post` is. -/
theorem filterLayers_stops_after_first_transport (packet : Packet)
    (pre post : List Layer) (t : Layer)
    (hlayers : packet.layers = pre ++ t :: post)
    (hpre : ∀ l ∈ pre, l.LayerType ≠ LayerType.TCP ∧ l.LayerType ≠ LayerType.UDP)
    (ht : t.LayerType = LayerType.TCP ∨ t.LayerType = LayerType.UDP)
    (henc : ∀ l ∈ pre ++ [t], (assertSerializable l).isSome = true) :
    (filterLayers packet).2 = none ∧
    (filterLayers packet).1.map some = (pre ++ [t]).map assertSerializable ∧
    (filterLayers packet).1.length = pre.length + 1 := by
  obtain ⟨kept, hk, hrun⟩ := filterLoop_append pre (t :: post) []
    (fun l hl => (isTransport_false_iff _).mpr (hpre l hl))
    (fun l hl => henc l (List.mem_append_left _ hl))
  obtain ⟨s, hs⟩ := Option.isSome_iff_exists.mp (henc t (by simp))
  have htt : isTransport t.LayerType = true := (isTransport_iff _).mpr ht
  have hres : filterLayers packet = (kept ++ [s], none) := by
    simp [filterLayers, hlayers, hrun, filterLoop, hs, htt]
  have hlen : kept.length = pre.length := by
    have := congrArg List.length hk
    simpa using this
  rw [hres]
  refine ⟨rfl, by simp [hk, hs], by simp [hlen]⟩

/-- C1, at Ethernet / IPv4 / TCP followed by a layer without encoding. -/
theorem filterLayers_stops_after_first_transport_witness :
    (filterLayers exPacketJunk).2 = none ∧
    (filterLayers exPacketJunk).1.map some
      = ([Layer.lib exEthernet, Layer.lib exIPv4] ++ [Layer.lib exTCP]).map assertSerializable ∧
    (filterLayers exPacketJunk).1.length = [Layer.lib exEthernet, Layer.lib exIPv4].length + 1 :=
  filterLayers_stops_after_first_transport exPacketJunk
    [Layer.lib exEthernet, Layer.lib exIPv4] [Layer.lib exFailure] (Layer.lib exTCP) rfl
    (by
      intro l hl
      simp only [List.mem_cons, List.mem_singleton, List.not_mem_nil, or_false] at hl
      rcases hl with rfl | rfl <;> exact ⟨by decide, by decide⟩)
    (Or.inl rfl)
    (by
      intro l hl
      simp only [List.cons_append, List.nil_append, List.mem_cons, List.mem_singleton,
        List.not_mem_nil, or_false] at hl
      rcases hl with rfl | rfl | rfl <;> rfl)

/-- C4. When no layer of a packet is TCP or UDP and every layer is encodable,
`filterLayers` returns no error and every layer, in order: the result is as
long as the layer sequence. -/
theorem filterLayers_keeps_all_without_transport (packet : Packet)
    (hnone : ∀ l ∈ packet.layers, l.LayerType ≠ LayerType.TCP ∧ l.LayerType ≠ LayerType.UDP)
    (henc : ∀ l ∈ packet.layers, (assertSerializable l).isSome = true) :
    (filterLayers packet).2 = none ∧
    (filterLayers packet).1.map some = packet.layers.map assertSerializable ∧
    (filterLayers packet).1.length = packet.layers.length := by
  obtain ⟨kept, hk, hrun⟩ := filterLoop_append packet.layers [] []
    (fun l hl => (isTransport_false_iff _).mpr (hnone l hl)) henc
  have hres : filterLayers packet = (kept, none) := by
    simp only [List.append_nil, List.nil_append] at hrun
    simp [filterLayers, hrun, filterLoop]
  have hlen : kept.length = packet.layers.length := by
    have := congrArg List.length hk
    simpa using this
  rw [hres]
  exact ⟨rfl, hk, hlen⟩

/-- C4, at an Ethernet / ARP packet. -/
theorem filterLayers_keeps_all_without_transport_witness :
    (filterLayers exPacketARP).2 = none ∧
    (filterLayers exPacketARP).1.map some = exPacketARP.layers.map assertSerializable ∧
    (filterLayers exPacketARP).1.length = exPacketARP.layers.length :=
  filterLayers_keeps_all_without_transport exPacketARP
    (by
      intro l hl
      simp only [exPacketARP, List.mem_cons, List.mem_singleton, List.not_mem_nil,
        or_false] at hl
      rcases hl with rfl | rfl <;> exact ⟨by decide, by decide⟩)
    (by
      intro l hl
      simp only [exPacketARP, List.mem_cons, List.mem_singleton, List.not_mem_nil,
        or_false] at hl
      rcases hl with rfl | rfl <;> rfl)

/-- C5. When a layer `bad` without encoding comes before any TCP or UDP layer
(all layers in front of it are encodable and none is TCP or UDP), `filterLayers`
returns the error naming `bad`, `trimPacket` returns that error and no packet,
and the loop of `main` stops at this packet with that error, the writer left as
it was. -/
theorem unencodable_layer_aborts (decode : Decoder) (packet : Packet)
    (pre post : List Layer) (bad : Layer)
    (hlayers : packet.layers = pre ++ bad :: post)
    (hpre : ∀ l ∈ pre, l.LayerType ≠ LayerType.TCP ∧ l.LayerType ≠ LayerType.UDP)
    (henc : ∀ l ∈ pre, (assertSerializable l).isSome = true)
    (hbad : assertSerializable bad = none) :
    (filterLayers packet).2 = some (Err.couldNotSerialize bad) ∧
    trimPacket decode packet = .error (Failure.error (Err.couldNotSerialize bad)) ∧
    ∀ (rest : List Packet) (w : Writer),
      mainLoop decode (packet :: rest) w
        = (w, some (Failure.error (Err.couldNotSerialize bad))) := by
  obtain ⟨kept, _, hrun⟩ := filterLoop_append pre (bad :: post) []
    (fun l hl => (isTransport_false_iff _).mpr (hpre l hl)) henc
  have hres : filterLayers packet = (kept, some (Err.couldNotSerialize bad)) := by
    simp [filterLayers, hlayers, hrun, filterLoop, hbad]
  have htrim : trimPacket decode packet
      = .error (Failure.error (Err.couldNotSerialize bad)) := by
    simp [trimPacket, hres]
  refine ⟨by rw [hres], htrim, ?_⟩
  intro rest w
  simp [mainLoop, htrim]

/-- C5, at Ethernet / undecodable rest / TCP. -/
theorem unencodable_layer_aborts_witness :
    (filterLayers exPacketBroken).2 = some (Err.couldNotSerialize (Layer.lib exFailure)) ∧
    trimPacket noDecode exPacketBroken
      = .error (Failure.error (Err.couldNotSerialize (Layer.lib exFailure))) ∧
    ∀ (rest : List Packet) (w : Writer),
      mainLoop noDecode (exPacketBroken :: rest) w
        = (w, some (Failure.error (Err.couldNotSerialize (Layer.lib exFailure)))) :=
  unencodable_layer_aborts noDecode exPacketBroken
    [Layer.lib exEthernet] [Layer.lib exTCP] (Layer.lib exFailure) rfl
    (by
      intro l hl
      simp only [List.mem_singleton] at hl
      subst hl
      exact ⟨by decide, by decide⟩)
    (by
      intro l hl
      simp only [List.mem_singleton] at hl
      subst hl
      rfl)
    rfl


/-! ## The Metadata Preserver and the loop of `main` -/

/-- A packet returned by `trimPacket` carries the capture info of a new packet. -/
theorem trimPacket_metadata (decode : Decoder) (packet p : Packet)
    (h : trimPacket decode packet = .ok p) :
    p.metadata.CaptureInfo = CaptureInfo.zero := by
  unfold trimPacket at h
  split at h
  · simp at h
  · split at h
    · simp at h
    · split at h
      · simp at h
      · simp only [Except.ok.injEq] at h
        rw [← h]
        rfl

/-- What the loop of `main` adds to the writer: one record for each packet of
an initial stretch of the input, in order, each the record of that packet. -/
theorem mainLoop_written (decode : Decoder) (packets : List Packet) (w : Writer) :
    ∃ written : List Record,
      (mainLoop decode packets w).1.records = w.records ++ written ∧
      List.Forall₂ (fun packet r => ∃ p, trimPacket decode packet = .ok p ∧ r = recordOf packet p)
        (packets.take written.length) written := by
  induction packets generalizing w with
  | nil => exact ⟨[], by simp [mainLoop]⟩
  | cons packet rest ih =>
    cases ht : trimPacket decode packet with
    | error f => exact ⟨[], by simp [mainLoop, ht]⟩
    | ok p =>
      cases hr : w.refuse w.records
          { Timestamp := p.metadata.CaptureInfo.Timestamp,
            CaptureLength := (p.data.length : Int),
            Length := packet.metadata.CaptureInfo.Length,
            InterfaceIndex := p.metadata.CaptureInfo.InterfaceIndex } p.data with
      | some msg =>
        exact ⟨[], by simp [mainLoop, ht, writeTrimmedPacket, Writer.WritePacket, hr]⟩
      | none =>
        obtain ⟨written, hrec, hall⟩ :=
          ih { w with records := w.records ++ [recordOf packet p] }
        refine ⟨recordOf packet p :: written, ?_, ?_⟩
        · simp only [mainLoop, ht, writeTrimmedPacket, Writer.WritePacket, hr]
          simpa [recordOf] using hrec
        · simp only [List.length_cons, List.take_succ_cons]
          exact List.Forall₂.cons ⟨p, ht, rfl⟩ hall

/-- C3. `writeTrimmedPacket` calls `WritePacket` with the data of the trimmed
packet unchanged and with a capture info whose `CaptureLength` is the length of
that data and whose `Length` is `originalLength`; and every record the loop of
`main` adds to the writer has the `Length` of the input packet it comes from, a
`CaptureLength` equal to the length of its own data, and the data of the
trimmed packet. -/
theorem writeTrimmedPacket_lengths :
    (∀ (p : Packet) (n : Int) (w : Writer),
      writeTrimmedPacket p n w
        = w.WritePacket
            { Timestamp := p.metadata.CaptureInfo.Timestamp,
              CaptureLength := (p.data.length : Int),
              Length := n,
              InterfaceIndex := p.metadata.CaptureInfo.InterfaceIndex } p.data) ∧
    (∀ (decode : Decoder) (packets : List Packet) (w : Writer),
      ∃ written : List Record,
        (mainLoop decode packets w).1.records = w.records ++ written ∧
        List.Forall₂
          (fun packet r =>
            r.ci.Length = packet.metadata.CaptureInfo.Length ∧
            r.ci.CaptureLength = (r.data.length : Int) ∧
            ∃ p, trimPacket decode packet = .ok p ∧ r.data = p.data)
          (packets.take written.length) written) := by
  refine ⟨fun p n w => rfl, fun decode packets w => ?_⟩
  obtain ⟨written, hrec, hall⟩ := mainLoop_written decode packets w
  refine ⟨written, hrec, ?_⟩
  refine List.Forall₂.imp ?_ hall
  rintro packet r ⟨p, hp, rfl⟩
  exact ⟨rfl, rfl, p, hp, rfl⟩

/-- C8, as the source has it. When `trimPacket` turns an input packet into `p`,
the capture info `writeTrimmedPacket` hands to the writer takes its timestamp
and interface index from `p`, the new packet, whose capture info is zero, and
only its original length from the input packet; the loop of `main` goes on with
what the writer makes of that call; and the run is the same whatever timestamp
the input packet carries: the input's timestamp is not passed on. -/
theorem handed_timestamp_of_new_packet (decode : Decoder) (packet p : Packet)
    (htrim : trimPacket decode packet = .ok p) :
    p.metadata.CaptureInfo = CaptureInfo.zero ∧
    (∀ w : Writer,
      writeTrimmedPacket p packet.metadata.CaptureInfo.Length w
        = w.WritePacket
            { Timestamp := p.metadata.CaptureInfo.Timestamp,
              CaptureLength := (p.data.length : Int),
              Length := packet.metadata.CaptureInfo.Length,
              InterfaceIndex := p.metadata.CaptureInfo.InterfaceIndex } p.data) ∧
    (∀ (rest : List Packet) (w : Writer),
      mainLoop decode (packet :: rest) w
        = match w.WritePacket
            { Timestamp := 0,
              CaptureLength := (p.data.length : Int),
              Length := packet.metadata.CaptureInfo.Length,
              InterfaceIndex := 0 } p.data with
          | (w1, some err) => (w1, some (Failure.error err))
          | (w1, none) => mainLoop decode rest w1) ∧
    (∀ (t : Int) (rest : List Packet) (w : Writer),
      mainLoop decode
          ({ layers := packet.layers, data := packet.data,
             metadata := { CaptureInfo :=
               { Timestamp := t,
                 CaptureLength := packet.metadata.CaptureInfo.CaptureLength,
                 Length := packet.metadata.CaptureInfo.Length,
                 InterfaceIndex := packet.metadata.CaptureInfo.InterfaceIndex } } } :: rest) w
        = mainLoop decode (packet :: rest) w) := by
  have hz := trimPacket_metadata decode packet p htrim
  refine ⟨hz, fun w => rfl, ?_, ?_⟩
  · intro rest w
    simp only [mainLoop, htrim, writeTrimmedPacket, hz, CaptureInfo.zero]
  · intro t rest w
    have hsame : trimPacket decode
        { layers := packet.layers, data := packet.data,
          metadata := { CaptureInfo :=
            { Timestamp := t,
              CaptureLength := packet.metadata.CaptureInfo.CaptureLength,
              Length := packet.metadata.CaptureInfo.Length,
              InterfaceIndex := packet.metadata.CaptureInfo.InterfaceIndex } } }
        = trimPacket decode packet := rfl
    simp only [mainLoop, hsame]

/-- C8 as the source has it, at the Ethernet sample: the writer is handed the
zero timestamp with captured length 60 and original length 1514. -/
theorem handed_timestamp_of_new_packet_witness :
    trimPacket noDecode exPacket
      = .ok (NewPacket noDecode (ethHdr ++ ipHdr ++ tcpHdr ++ [0, 0, 0, 0, 0, 0])
          LayerType.Ethernet) ∧
    exPacket.metadata.CaptureInfo.Timestamp = 1700000000 ∧
    (∀ w : Writer,
      writeTrimmedPacket
          (NewPacket noDecode (ethHdr ++ ipHdr ++ tcpHdr ++ [0, 0, 0, 0, 0, 0])
            LayerType.Ethernet)
          exPacket.metadata.CaptureInfo.Length w
        = w.WritePacket
            { Timestamp := 0, CaptureLength := 60, Length := 1514, InterfaceIndex := 0 }
            (ethHdr ++ ipHdr ++ tcpHdr ++ [0, 0, 0, 0, 0, 0])) := by
  have htrim : trimPacket noDecode exPacket
      = .ok (NewPacket noDecode (ethHdr ++ ipHdr ++ tcpHdr ++ [0, 0, 0, 0, 0, 0])
          LayerType.Ethernet) := by
    unfold trimPacket
    rfl
  have h := handed_timestamp_of_new_packet noDecode exPacket _ htrim
  exact ⟨htrim, rfl, fun w => h.2.1 w⟩

/-- C8 fails as stated: the sample packet has timestamp 1700000000, it is
trimmed and its record accepted, and the capture info handed to the writer for
it has timestamp 0; the same record is handed over when the input carries
another timestamp. -/
theorem timestamp_not_carried_over :
    exPacket.metadata.CaptureInfo.Timestamp = 1700000000 ∧
    (mainLoop noDecode [exPacket] exWriter).2.isNone = true ∧
    (mainLoop noDecode [exPacket] exWriter).1.records.map (fun r => r.ci.Timestamp) = [0] ∧
    ¬ (∀ r ∈ (mainLoop noDecode [exPacket] exWriter).1.records,
        r.ci.Timestamp = exPacket.metadata.CaptureInfo.Timestamp) ∧
    (mainLoop noDecode
        [{ layers := exPacket.layers, data := exPacket.data,
           metadata := { CaptureInfo := { exInfo with Timestamp := 1600000000 } } }]
        exWriter).1.records
      = (mainLoop noDecode [exPacket] exWriter).1.records := by
  refine ⟨rfl, rfl, rfl, ?_, rfl⟩
  intro h
  have h0 : (mainLoop noDecode [exPacket] exWriter).1.records.map (fun r => r.ci.Timestamp)
      = [0] := rfl
  have hall : ∀ t ∈ (mainLoop noDecode [exPacket] exWriter).1.records.map
      (fun r => r.ci.Timestamp), t = 1700000000 := by
    intro t ht
    obtain ⟨r, hr, rfl⟩ := List.mem_map.mp ht
    exact h r hr
  rw [h0] at hall
  have := hall 0 (by simp)
  omega

/-- C9 fails on the code: for a packet without layers `filterLayers` returns
the empty list and no error, and `trimPacket` then panics on `trimmedLayers[0]`
instead of returning an error. -/
theorem trimPacket_empty_panics (decode : Decoder) :
    (filterLayers exEmpty).1.length = 0 ∧
    (filterLayers exEmpty).2.isNone = true ∧
    trimPacket decode exEmpty = .error (Failure.panic Panic.indexOutOfRange) :=
  ⟨rfl, rfl, rfl⟩


/-! ## The Layer Codec Adapter -/

/-- The adapter on a fresh buffer, statement by statement: the bounds check of
`bytes[6:AddrLen+6]`, the two index checks, and the 16 bytes written. -/
theorem SerializeTo_fresh (a : SerializableLinuxSLL) (b : Bytes) :
    a.SerializeTo (PrependBytes b 16) =
      if 6 ≤ (a.LinuxSLL.AddrLen + 6) % 65536 ∧ (a.LinuxSLL.AddrLen + 6) % 65536 ≤ 16 + b.length then
        match a.LinuxSLL.Addr with
        | d0 :: d1 :: _ =>
          if 2 ≤ (a.LinuxSLL.AddrLen + 6) % 65536 - 6 then
            .ok [a.LinuxSLL.PacketType % 65536 / 256 % 256, a.LinuxSLL.PacketType % 65536 % 256,
                 a.LinuxSLL.AddrType / 256 % 256, a.LinuxSLL.AddrType % 256,
                 a.LinuxSLL.AddrLen / 256 % 256, a.LinuxSLL.AddrLen % 256,
                 (d1 + d0 * 256) % 65536 / 256 % 256, (d1 + d0 * 256) % 65536 % 256,
                 0, 0, 0, 0, 0, 0,
                 a.LinuxSLL.EthernetType % 65536 / 256 % 256, a.LinuxSLL.EthernetType % 65536 % 256]
          else .error (Failure.panic Panic.indexOutOfRange)
        | _ => .error (Failure.panic Panic.indexOutOfRange)
      else .error (Failure.panic Panic.sliceBoundsOutOfRange) := by
  have h16 : List.replicate 16 0 = [0, 0, 0, 0, 0, 0, 0, 0, 0, 0, 0, 0, 0, 0, 0, (0 : Nat)] := rfl
  have c2 : 2 ≤ 16 + b.length := by omega
  have c4 : 4 ≤ 16 + b.length := by omega
  have c6 : 6 ≤ 16 + b.length := by omega
  have c16 : 16 ≤ 16 + b.length := by omega
  by_cases hb : 6 ≤ (a.LinuxSLL.AddrLen + 6) % 65536 ∧ (a.LinuxSLL.AddrLen + 6) % 65536 ≤ 16 + b.length
  · rw [if_pos hb]
    rcases hD : a.LinuxSLL.Addr with _ | ⟨d0, _ | ⟨d1, tl⟩⟩
    · simp [SerializableLinuxSLL.SerializeTo, PrependBytes, SerializableLinuxSLL.fill, h16,
        PutUint16, Slice.window, Uint16, bind, Except.bind, c2, c4, c6, c16, hb, hD]
    · simp [SerializableLinuxSLL.SerializeTo, PrependBytes, SerializableLinuxSLL.fill, h16,
        PutUint16, Slice.window, Uint16, bind, Except.bind, c2, c4, c6, c16, hb, hD]
    · by_cases h2 : 2 ≤ (a.LinuxSLL.AddrLen + 6) % 65536 - 6
      · simp [SerializableLinuxSLL.SerializeTo, PrependBytes, SerializableLinuxSLL.fill, h16,
          PutUint16, Slice.window, Uint16, bind, Except.bind, c2, c4, c6, c16, hb, hD, h2,
          pure, Except.pure]
      · simp [SerializableLinuxSLL.SerializeTo, PrependBytes, SerializableLinuxSLL.fill, h16,
          PutUint16, Slice.window, Uint16, bind, Except.bind, c2, c4, c6, c16, hb, hD, h2]
  · rw [if_neg hb]
    simp [SerializableLinuxSLL.SerializeTo, PrependBytes, SerializableLinuxSLL.fill, h16,
      PutUint16, Slice.window, Uint16, bind, Except.bind, c2, c4, c6, c16, hb]


/-- C6 fails on the code: for the cooked-capture layer with packet type 0,
address type 1, the six-byte address 00:11:22:33:44:55 and protocol type 0x0800,
`SerializeTo` on a fresh buffer writes only the first two address bytes, so
bytes 8 to 11 are zero where the layout has the rest of the address. -/
theorem SerializeTo_drops_address_bytes :
    exSLL.AddrLen = 6 ∧ exSLL.Addr.length = 6 ∧
    SerializableLinuxSLL.SerializeTo { LinuxSLL := exSLL } (PrependBytes [] 16)
      = .ok [0, 0, 0, 1, 0, 6, 0, 17, 0, 0, 0, 0, 0, 0, 8, 0] ∧
    sllLayout exSLL.PacketType exSLL.AddrType exSLL.AddrLen exSLL.Addr exSLL.EthernetType
      = [0, 0, 0, 1, 0, 6, 0, 17, 34, 51, 68, 85, 0, 0, 8, 0] ∧
    SerializableLinuxSLL.SerializeTo { LinuxSLL := exSLL } (PrependBytes [] 16)
      ≠ .ok (sllLayout exSLL.PacketType exSLL.AddrType exSLL.AddrLen exSLL.Addr
          exSLL.EthernetType) := by
  refine ⟨rfl, rfl, rfl, rfl, ?_⟩
  intro h
  have h1 : SerializableLinuxSLL.SerializeTo { LinuxSLL := exSLL } (PrependBytes [] 16)
      = .ok [0, 0, 0, 1, 0, 6, 0, 17, 0, 0, 0, 0, 0, 0, 8, 0] := rfl
  rw [h1] at h
  simp only [Except.ok.injEq] at h
  exact absurd h (by decide)

/-- C7 fails on the code: reading back the 16 bytes `SerializeTo` wrote for the
layer with the six-byte address 00:11:22:33:44:55 gives the address
00:11:00:00:00:00; the other four fields come back as they were. -/
theorem SerializeTo_round_trip_loses_address :
    ∃ out s, SerializableLinuxSLL.SerializeTo { LinuxSLL := exSLL } (PrependBytes [] 16) = .ok out ∧
      decodeLinuxSLL out = some s ∧
      s.PacketType = exSLL.PacketType ∧ s.AddrType = exSLL.AddrType ∧
      s.AddrLen = exSLL.AddrLen ∧ s.EthernetType = exSLL.EthernetType ∧
      s.Addr = [0, 17, 0, 0, 0, 0] ∧ exSLL.Addr = [0, 17, 34, 51, 68, 85] ∧
      s.Addr ≠ exSLL.Addr :=
  ⟨[0, 0, 0, 1, 0, 6, 0, 17, 0, 0, 0, 0, 0, 0, 8, 0],
    { base := { Contents := [0, 0, 0, 1, 0, 6, 0, 17, 0, 0, 0, 0, 0, 0, 8, 0], Payload := [] },
      PacketType := 0, AddrType := 1, AddrLen := 6, Addr := [0, 17, 0, 0, 0, 0],
      EthernetType := 2048 },
    rfl, by decide, rfl, rfl, rfl, rfl, rfl, rfl, by decide⟩

/-- C2 fails on the code, twice. The cooked-capture sample is trimmed to its
three headers, 56 bytes, but they are not the first 56 bytes of the input:
address bytes 8 to 11 of the cooked-capture header come out as zero. The
Ethernet sample is trimmed to its three headers as well, but the Ethernet
encoder pads the buffer to 60 bytes: the output is the first 54 bytes of the
input followed by six zero bytes, and the record handed to the writer has
captured length 60, not 54, and original length 1514. -/
theorem trimPacket_output_differs_from_input :
    (∃ p, trimPacket noDecode exCooked = .ok p ∧
      (filterLayers exCooked).1.length = 3 ∧
      p.data = [0, 0, 0, 1, 0, 6, 0, 17, 0, 0, 0, 0, 0, 0, 8, 0] ++ ipHdr ++ tcpHdr ∧
      exCooked.data.take 56 = [0, 0, 0, 1, 0, 6, 0, 17, 34, 51, 68, 85, 0, 0, 8, 0] ++ ipHdr ++ tcpHdr ∧
      p.data ≠ exCooked.data.take 56) ∧
    (∃ p, trimPacket noDecode exPacket = .ok p ∧
      (filterLayers exPacket).1.length = 3 ∧
      p.data = exPacket.data.take 54 ++ [0, 0, 0, 0, 0, 0] ∧
      p.data.length = 60 ∧
      p.data ≠ exPacket.data.take 54 ∧
      (mainLoop noDecode [exPacket] exWriter).1.records
        = [{ ci := { Timestamp := 0, CaptureLength := 60, Length := 1514, InterfaceIndex := 0 },
             data := exPacket.data.take 54 ++ [0, 0, 0, 0, 0, 0] }]) := by
  refine ⟨⟨NewPacket noDecode ([0, 0, 0, 1, 0, 6, 0, 17, 0, 0, 0, 0, 0, 0, 8, 0] ++ ipHdr ++ tcpHdr)
      LayerType.LinuxSLL, by unfold trimPacket; rfl, rfl, rfl, by decide, by decide⟩,
    ⟨NewPacket noDecode (ethHdr ++ ipHdr ++ tcpHdr ++ [0, 0, 0, 0, 0, 0]) LayerType.Ethernet,
      by unfold trimPacket; rfl, rfl, by decide, by decide, by decide, by decide⟩⟩


/-- Reading two bytes written big-endian gives the value back, reduced to 16 bits. -/
theorem be_join (v : Nat) : v / 256 % 256 * 256 + v % 256 = v % 65536 := by
  omega

/-- Re-encoding what was read back from an encoded cooked-capture header gives
the same 16 bytes. -/
theorem SerializeTo_reencode (a : SerializableLinuxSLL) (b out : Bytes) (s2 : LinuxSLL)
    (h1 : a.SerializeTo (PrependBytes b 16) = .ok out)
    (h2 : decodeLinuxSLL (out ++ b) = some s2) :
    SerializableLinuxSLL.SerializeTo { LinuxSLL := s2 } (PrependBytes b 16) = .ok out := by
  rw [SerializeTo_fresh] at h1
  split at h1
  next hb =>
    split at h1
    next d0 d1 tl hD =>
      split at h1
      next hw =>
        simp only [Except.ok.injEq] at h1
        subst h1
        have hstop : (a.LinuxSLL.AddrLen / 256 % 256 * 256 + a.LinuxSLL.AddrLen % 256 + 6) % 65536
            = (a.LinuxSLL.AddrLen + 6) % 65536 := by omega
        obtain ⟨k, hk⟩ : ∃ k, (a.LinuxSLL.AddrLen + 6) % 65536 - 6 = k + 2 :=
          ⟨(a.LinuxSLL.AddrLen + 6) % 65536 - 6 - 2, by omega⟩
        simp only [decodeLinuxSLL, readBE16, List.cons_append, List.nil_append, List.length_cons,
          List.getD_cons_succ, List.getD_cons_zero, hstop] at h2
        rw [if_neg (by omega), if_pos ⟨hb.1, by omega⟩] at h2
        simp only [Option.some.injEq] at h2
        subst h2
        rw [SerializeTo_fresh]
        simp only [hstop, hk, List.drop_succ_cons, List.drop_zero, List.take_succ_cons]
        rw [if_pos ⟨hb.1, hb.2⟩]
        rw [if_pos (by omega)]
        congr 1
        simp only [List.cons.injEq, and_true, true_and]
        omega
      next hw => simp at h1
    next => simp at h1
  next => simp at h1


/-! ## Running the pipeline on its own output -/

/-- The serializable view of a layer has the layer's type. -/
theorem assertSerializable_type (l : Layer) (s : SerializableLayer)
    (h : assertSerializable l = some s) : s.LayerType = l.LayerType := by
  cases l with
  | linuxSLL x =>
    simp only [assertSerializable, Option.some.injEq] at h
    subst h
    rfl
  | lib x =>
    cases hx : x.SerializeTo with
    | none => simp [assertSerializable, hx] at h
    | some enc =>
      simp only [assertSerializable, hx, Option.some.injEq] at h
      subst h
      rfl

/-- In what `filterLayers` retains without error, only the last layer can be
TCP or UDP. -/
theorem filterLoop_stopsOnlyAtEnd (layers : List Layer) (ls : List SerializableLayer)
    (e : Option Err) (h : filterLoop layers [] = (ls, e)) :
    stopsOnlyAtEnd (ls.map SerializableLayer.LayerType) = true := by
  induction layers generalizing ls e with
  | nil =>
    simp only [filterLoop, Prod.mk.injEq] at h
    rw [← h.1]
    rfl
  | cons l rest ih =>
    cases hs : assertSerializable l with
    | none =>
      simp only [filterLoop, hs, Prod.mk.injEq] at h
      rw [← h.1]
      rfl
    | some s =>
      have hty := assertSerializable_type l s hs
      by_cases ht : isTransport l.LayerType = true
      · simp only [filterLoop, hs, ht, if_true, List.nil_append, Prod.mk.injEq] at h
        rw [← h.1]
        rfl
      · have ht2 : isTransport l.LayerType = false := by simpa using ht
        simp only [filterLoop, hs, ht2, Bool.false_eq_true, if_false, List.nil_append] at h
        rw [filterLoop_acc] at h
        simp only [Prod.mk.injEq] at h
        have hrest := ih (filterLoop rest []).1 (filterLoop rest []).2 rfl
        rw [← h.1]
        cases hr : (filterLoop rest []).1 with
        | nil => rfl
        | cons x xs =>
          rw [hr] at hrest
          simp only [List.singleton_append, List.map_cons, stopsOnlyAtEnd, Bool.and_eq_true,
            Bool.not_eq_true', hty]
          exact ⟨by simpa using ht, by simpa using hrest⟩

/-- A sequence of encodable layers in which only the last can be TCP or UDP is
retained whole. -/
theorem filterLoop_whole (layers : List Layer) (ls : List SerializableLayer)
    (henc : layers.map assertSerializable = ls.map some)
    (hstop : stopsOnlyAtEnd (layers.map Layer.LayerType) = true) :
    filterLoop layers [] = (ls, none) := by
  induction layers generalizing ls with
  | nil =>
    cases ls with
    | nil => rfl
    | cons x xs => simp at henc
  | cons l rest ih =>
    cases ls with
    | nil => simp at henc
    | cons s ss =>
      simp only [List.map_cons, List.cons.injEq] at henc
      obtain ⟨hs, hrest⟩ := henc
      cases rest with
      | nil =>
        cases ss with
        | nil =>
          by_cases ht : isTransport l.LayerType = true
          · simp [filterLoop, hs, ht]
          · simp [filterLoop, hs, ht]
        | cons y ys => simp at hrest
      | cons r rs =>
        simp only [List.map_cons, stopsOnlyAtEnd, Bool.and_eq_true, Bool.not_eq_true'] at hstop
        have := ih ss hrest (by simpa using hstop.2)
        rw [filterLoop, hs]
        simp only [hstop.1, List.nil_append]
        rw [filterLoop_acc, this]
        simp

/-- What a decoder reads back from the retained layers is again encodable, has
the same layer types, and serializes to the same bytes. -/
theorem Rereads_serializes (ls : List SerializableLayer) (layers2 : List Layer)
    (h : Rereads ls layers2) :
    ∃ ls2 : List SerializableLayer,
      layers2.map assertSerializable = ls2.map some ∧
      layers2.map Layer.LayerType = ls.map SerializableLayer.LayerType ∧
      ls2.map SerializableLayer.LayerType = ls.map SerializableLayer.LayerType ∧
      SerializeLayers ls2 = SerializeLayers ls := by
  induction h with
  | nil => exact ⟨[], rfl, rfl, rfl, rfl⟩
  | lib l l2 enc ls ls2 hty henc _ ih =>
    obtain ⟨ks, h1, h2, h3, h4⟩ := ih
    refine ⟨SerializableLayer.lib l2 enc :: ks, ?_, ?_, ?_, ?_⟩
    · simp [assertSerializable, henc, h1]
    · simp [Layer.LayerType, SerializableLayer.LayerType, hty, h2]
    · simp [SerializableLayer.LayerType, hty, h3]
    · simp [SerializeLayers, h4, SerializableLayer.SerializeTo]
  | sll a s2 data ls ls2 hser hdec _ ih =>
    obtain ⟨ks, h1, h2, h3, h4⟩ := ih
    refine ⟨SerializableLayer.sll { LinuxSLL := s2 } :: ks, ?_, ?_, ?_, ?_⟩
    · simp [assertSerializable, h1]
    · simp [Layer.LayerType, SerializableLayer.LayerType, h2]
    · simp [SerializableLayer.LayerType, h3]
    · rw [SerializeLayers, h4]
      rw [SerializeLayers] at hser ⊢
      cases hb : SerializeLayers ls with
      | error f => simp [hb] at hser
      | ok b =>
        rw [hb] at hser
        simp only [SerializableLayer.SerializeTo] at hser ⊢
        cases ha : a.SerializeTo (PrependBytes b 16) with
        | error f => simp [ha] at hser
        | ok out =>
          rw [ha] at hser
          simp only [Except.ok.injEq] at hser
          subst hser
          rw [SerializeTo_reencode a b out s2 ha hdec]


/-- A second run on a record that is read back layer for layer. Let `trimPacket`
turn an input packet into `p`, and let the decoder, at the link type of the
output file, read the data of `p` back as the retained layers (library layers
as they were encoded, the cooked-capture header from the 16 bytes written for
it). Then the second run retains every layer it reads, serializes them to the
very bytes of `p`, returns `p` again, and hands the writer the same record. -/
theorem second_run_same_record (decode : Decoder) (packet p q : Packet)
    (htrim : trimPacket decode packet = .ok p)
    (hq : readCapture decode outputLinkType [recordOf packet p] = [q])
    (hread : Rereads (filterLayers packet).1 q.layers) :
    (filterLayers q).2 = none ∧
    (filterLayers q).1.map some = q.layers.map assertSerializable ∧
    SerializeLayers (filterLayers q).1 = .ok p.data ∧
    trimPacket decode q = .ok p ∧
    recordOf q p = recordOf packet p := by
  have hqm : q.metadata.CaptureInfo = (recordOf packet p).ci := by
    simp only [readCapture, List.map_cons, List.map_nil, List.cons.injEq, and_true] at hq
    rw [← hq]
  rcases hf : filterLayers packet with ⟨ls, e⟩
  rw [hf] at hread
  simp only at hread
  unfold trimPacket at htrim
  rw [hf] at htrim
  cases e with
  | some err => simp at htrim
  | none =>
    simp only at htrim
    cases hser : SerializeLayers ls with
    | error f => simp [hser] at htrim
    | ok bytes =>
      rw [hser] at htrim
      cases ls with
      | nil => simp at htrim
      | cons first tl =>
        simp only [Except.ok.injEq] at htrim
        obtain ⟨ls2, h1, h2, h3, h4⟩ := Rereads_serializes (first :: tl) q.layers hread
        have hstop := filterLoop_stopsOnlyAtEnd packet.layers (first :: tl) none hf
        rw [← h2] at hstop
        have hsecond : filterLayers q = (ls2, none) :=
          filterLoop_whole q.layers ls2 h1 hstop
        have hdata : p.data = bytes := by rw [← htrim]; rfl
        cases ls2 with
        | nil => simp at h3
        | cons first2 tl2 =>
          simp only [List.map_cons, List.cons.injEq] at h3
          have htrim2 : trimPacket decode q = .ok p := by
            unfold trimPacket
            rw [hsecond]
            simp only
            rw [h4, hser]
            simp only [h3.1, htrim]
          refine ⟨by rw [hsecond], by rw [hsecond, h1], ?_, htrim2, ?_⟩
          · rw [hsecond]
            simp only
            rw [h4, hser, hdata]
          · simp only [recordOf, hqm]

/-- The cooked-capture sample is read back layer for layer at the link type of
the output file, and the second run hands the writer the record of the first. -/
theorem second_run_same_record_cooked :
    ∃ p q, trimPacket exDecode exCooked = .ok p ∧
      readCapture exDecode outputLinkType [recordOf exCooked p] = [q] ∧
      trimPacket exDecode q = .ok p ∧
      recordOf q p = recordOf exCooked p := by
  have htrim : trimPacket exDecode exCooked = .ok (NewPacket exDecode
      ([0, 0, 0, 1, 0, 6, 0, 17, 0, 0, 0, 0, 0, 0, 8, 0] ++ ipHdr ++ tcpHdr)
      LayerType.LinuxSLL) := by
    unfold trimPacket
    rfl
  have hread : Rereads (filterLayers exCooked).1
      (exDecode ([0, 0, 0, 1, 0, 6, 0, 17, 0, 0, 0, 0, 0, 0, 8, 0] ++ ipHdr ++ tcpHdr)
        outputLinkType) := by
    have hf : (filterLayers exCooked).1
        = [SerializableLayer.sll { LinuxSLL := exSLL },
           SerializableLayer.lib exIPv4 (writesBack ipHdr),
           SerializableLayer.lib exTCP (writesBack tcpHdr)] := rfl
    rw [hf]
    have hs : SerializeLayers [SerializableLayer.sll { LinuxSLL := exSLL },
        SerializableLayer.lib exIPv4 (writesBack ipHdr),
        SerializableLayer.lib exTCP (writesBack tcpHdr)]
        = .ok ([0, 0, 0, 1, 0, 6, 0, 17, 0, 0, 0, 0, 0, 0, 8, 0] ++ ipHdr ++ tcpHdr) := rfl
    exact Rereads.sll _ _
      ([0, 0, 0, 1, 0, 6, 0, 17, 0, 0, 0, 0, 0, 0, 8, 0] ++ ipHdr ++ tcpHdr) _ _ hs (by decide)
      (Rereads.lib _ _ _ _ _ rfl rfl (Rereads.lib _ _ _ _ _ rfl rfl Rereads.nil))
  have h := second_run_same_record exDecode exCooked _ _ htrim rfl hread
  exact ⟨_, _, htrim, rfl, h.2.2.2.1, h.2.2.2.2⟩

/-- C10 fails on the code: the Ethernet sample is trimmed and its record of 60
bytes is written, under a file header that declares the cooked-capture link
type. A second run decodes that record at the link type of the file, takes
bytes 4-5 of the destination address for an address length of 17493, cannot
read a cooked-capture header, and gets a packet holding a decoding failure
only; `trimPacket` returns the error naming it and the run stops with nothing
written, where the first run wrote a record. -/
theorem second_run_aborts_on_ethernet_record (others : Decoder)
    (next : Nat → Bytes → List Layer) :
    outputLinkType = LayerType.LinuxSLL ∧
    (mainLoop (cookedDecoder others next) [exPacket] exWriter).1.records
      = [{ ci := { Timestamp := 0, CaptureLength := 60, Length := 1514, InterfaceIndex := 0 },
           data := ethHdr ++ ipHdr ++ tcpHdr ++ [0, 0, 0, 0, 0, 0] }] ∧
    (mainLoop (cookedDecoder others next) [exPacket] exWriter).2.isNone = true ∧
    readBE16 (ethHdr ++ ipHdr ++ tcpHdr ++ [0, 0, 0, 0, 0, 0]) 4 = 17493 ∧
    (readCapture (cookedDecoder others next) outputLinkType
        (mainLoop (cookedDecoder others next) [exPacket] exWriter).1.records).map
          (fun q => q.layers.map Layer.LayerType)
      = [[LayerType.DecodeFailure]] ∧
    mainLoop (cookedDecoder others next)
        (readCapture (cookedDecoder others next) outputLinkType
          (mainLoop (cookedDecoder others next) [exPacket] exWriter).1.records) exWriter
      = (exWriter, some (Failure.error (Err.couldNotSerialize
          (Layer.lib (decodeFailure (ethHdr ++ ipHdr ++ tcpHdr ++ [0, 0, 0, 0, 0, 0])))))) := by
  have hfirst : (mainLoop (cookedDecoder others next) [exPacket] exWriter).1.records
      = [{ ci := { Timestamp := 0, CaptureLength := 60, Length := 1514, InterfaceIndex := 0 },
           data := ethHdr ++ ipHdr ++ tcpHdr ++ [0, 0, 0, 0, 0, 0] }] := rfl
  have hdec : decodeLinuxSLL (ethHdr ++ ipHdr ++ tcpHdr ++ [0, 0, 0, 0, 0, 0]) = none := by
    decide
  have hread : readCapture (cookedDecoder others next) outputLinkType
      [{ ci := { Timestamp := 0, CaptureLength := 60, Length := 1514, InterfaceIndex := 0 },
         data := ethHdr ++ ipHdr ++ tcpHdr ++ [0, 0, 0, 0, 0, 0] }]
      = [{ layers := [Layer.lib (decodeFailure (ethHdr ++ ipHdr ++ tcpHdr ++ [0, 0, 0, 0, 0, 0]))],
           data := ethHdr ++ ipHdr ++ tcpHdr ++ [0, 0, 0, 0, 0, 0],
           metadata := { CaptureInfo :=
             { Timestamp := 0, CaptureLength := 60, Length := 1514, InterfaceIndex := 0 } } }] := by
    simp only [readCapture, List.map_cons, List.map_nil, cookedDecoder, outputLinkType, if_true,
      decodeCooked, hdec]
  refine ⟨rfl, hfirst, rfl, by decide, ?_, ?_⟩
  · rw [hfirst, hread]
    rfl
  · rw [hfirst, hread]
    rfl

/-! ## The adapter on short addresses -/

/-- C11 fails on the code: for the cooked-capture layers with a one-byte
address and with no address, on every fresh buffer, `PrependBytes(16)` succeeds
and `SerializeTo` panics with an index out of range at `Uint16(sll.Addr)`
instead of returning nil. -/
theorem SerializeTo_short_address_panics (b : Bytes) :
    exSLLShort.AddrLen = 1 ∧ exSLLShort.Addr.length = 1 ∧
    exSLLNoAddr.AddrLen = 0 ∧ exSLLNoAddr.Addr.length = 0 ∧
    (∃ room, PrependBytes b 16 = .ok room ∧ room.bytes.length = 16) ∧
    SerializableLinuxSLL.SerializeTo { LinuxSLL := exSLLShort } (PrependBytes b 16)
      = .error (Failure.panic Panic.indexOutOfRange) ∧
    SerializableLinuxSLL.SerializeTo { LinuxSLL := exSLLNoAddr } (PrependBytes b 16)
      = .error (Failure.panic Panic.indexOutOfRange) := by
  refine ⟨rfl, rfl, rfl, rfl, ⟨_, rfl, by simp⟩, ?_, ?_⟩
  · rw [SerializeTo_fresh]
    simp only [exSLLShort]
    rw [if_pos ⟨by omega, by omega⟩]
  · rw [SerializeTo_fresh]
    simp only [exSLLNoAddr]
    rw [if_pos ⟨by omega, by omega⟩]


/-! ## Lengths of the records written -/

/-- C12. Let an input packet store as many bytes as its captured length says,
let its captured length not exceed its original length, and let `trimPacket`
turn it into `p` with less data than the input has. Then the record
`writeTrimmedPacket` hands to the writer for it has the data of `p`, a captured
length equal to the length of that data and strictly smaller than the input's
captured length, the input's original length, and so a captured length no
larger than its original length; and a writer that accepts it has exactly this
record added, after which the loop of `main` goes on with the next packet. -/
theorem written_lengths_after_trimming (decode : Decoder) (packet p : Packet)
    (htrim : trimPacket decode packet = .ok p)
    (hstored : packet.metadata.CaptureInfo.CaptureLength = (packet.data.length : Int))
    (hcap : packet.metadata.CaptureInfo.CaptureLength ≤ packet.metadata.CaptureInfo.Length)
    (hshort : p.data.length < packet.data.length) :
    (recordOf packet p).data = p.data ∧
    (recordOf packet p).ci.CaptureLength = (p.data.length : Int) ∧
    (recordOf packet p).ci.CaptureLength < packet.metadata.CaptureInfo.CaptureLength ∧
    (recordOf packet p).ci.Length = packet.metadata.CaptureInfo.Length ∧
    (recordOf packet p).ci.CaptureLength ≤ (recordOf packet p).ci.Length ∧
    (∀ w : Writer,
      writeTrimmedPacket p packet.metadata.CaptureInfo.Length w
        = w.WritePacket (recordOf packet p).ci (recordOf packet p).data) ∧
    (∀ (rest : List Packet) (w : Writer),
      w.refuse w.records (recordOf packet p).ci (recordOf packet p).data = none →
      (writeTrimmedPacket p packet.metadata.CaptureInfo.Length w).1.records
        = w.records ++ [recordOf packet p] ∧
      mainLoop decode (packet :: rest) w
        = mainLoop decode rest { w with records := w.records ++ [recordOf packet p] }) := by
  refine ⟨rfl, rfl, ?_, rfl, ?_, fun w => rfl, ?_⟩
  · simp only [recordOf]
    omega
  · simp only [recordOf]
    omega
  · intro rest w haccept
    simp only [recordOf] at haccept
    constructor
    · simp only [writeTrimmedPacket, Writer.WritePacket, haccept, recordOf]
    · simp only [mainLoop, htrim, writeTrimmedPacket, Writer.WritePacket, haccept, recordOf]

/-- C12, at the Ethernet sample: the input stores 1514 bytes, 60 bytes come out
of `trimPacket`, and the one record written has captured length 60 and original
length 1514. -/
theorem written_lengths_after_trimming_witness :
    trimPacket noDecode exPacket
      = .ok (NewPacket noDecode (ethHdr ++ ipHdr ++ tcpHdr ++ [0, 0, 0, 0, 0, 0])
          LayerType.Ethernet) ∧
    exPacket.data.length = 1514 ∧
    (NewPacket noDecode (ethHdr ++ ipHdr ++ tcpHdr ++ [0, 0, 0, 0, 0, 0])
      LayerType.Ethernet).data.length = 60 ∧
    (recordOf exPacket (NewPacket noDecode (ethHdr ++ ipHdr ++ tcpHdr ++ [0, 0, 0, 0, 0, 0])
      LayerType.Ethernet)).ci.CaptureLength < exPacket.metadata.CaptureInfo.CaptureLength ∧
    (recordOf exPacket (NewPacket noDecode (ethHdr ++ ipHdr ++ tcpHdr ++ [0, 0, 0, 0, 0, 0])
      LayerType.Ethernet)).ci.CaptureLength
      ≤ (recordOf exPacket (NewPacket noDecode (ethHdr ++ ipHdr ++ tcpHdr ++ [0, 0, 0, 0, 0, 0])
          LayerType.Ethernet)).ci.Length ∧
    (mainLoop noDecode [exPacket] exWriter).1.records
      = [{ ci := { Timestamp := 0, CaptureLength := 60, Length := 1514, InterfaceIndex := 0 },
           data := ethHdr ++ ipHdr ++ tcpHdr ++ [0, 0, 0, 0, 0, 0] }] := by
  have htrim : trimPacket noDecode exPacket
      = .ok (NewPacket noDecode (ethHdr ++ ipHdr ++ tcpHdr ++ [0, 0, 0, 0, 0, 0])
          LayerType.Ethernet) := by
    unfold trimPacket
    rfl
  have hl : exPacket.data.length = 1514 := by
    simp only [exPacket, payload1460, List.length_append, List.length_replicate]
    rfl
  have hstored : exPacket.metadata.CaptureInfo.CaptureLength = (exPacket.data.length : Int) := by
    rw [hl]
    rfl
  have hshort : (NewPacket noDecode (ethHdr ++ ipHdr ++ tcpHdr ++ [0, 0, 0, 0, 0, 0])
      LayerType.Ethernet).data.length < exPacket.data.length := by
    rw [hl]
    decide
  have h := written_lengths_after_trimming noDecode exPacket _ htrim hstored (le_refl _) hshort
  have hrun := (h.2.2.2.2.2.2 [] exWriter rfl).2
  refine ⟨htrim, hl, by decide, h.2.2.1, h.2.2.2.2.1, ?_⟩
  rw [hrun]
  rfl

/-! ## Order of the records written -/

/-- C13. For every input sequence the loop of `main` adds to the writer the
records of an initial stretch of the packets, in order, the i-th record being
that of the i-th packet. When the loop runs to the end there is one record for
every packet. When it stops with a failure, the packet right after that stretch
is the one that failed (its trimming failed, or the writer refused its record),
so nothing is written for it or for any later packet. -/
theorem mainLoop_sequential (decode : Decoder) (packets : List Packet) (w : Writer) :
    ∃ written : List Record,
      (mainLoop decode packets w).1.records = w.records ++ written ∧
      (mainLoop decode packets w).1.refuse = w.refuse ∧
      List.Forall₂ (fun packet r => ∃ p, trimPacket decode packet = .ok p ∧ r = recordOf packet p)
        (packets.take written.length) written ∧
      ((mainLoop decode packets w).2 = none → written.length = packets.length) ∧
      (∀ f, (mainLoop decode packets w).2 = some f →
        ∃ packet, packets[written.length]? = some packet ∧
          (trimPacket decode packet = .error f ∨
            ∃ p msg, trimPacket decode packet = .ok p ∧
              w.refuse (w.records ++ written) (recordOf packet p).ci (recordOf packet p).data
                = some msg ∧
              f = Failure.error (Err.library msg))) := by
  induction packets generalizing w with
  | nil => exact ⟨[], by simp [mainLoop]⟩
  | cons packet rest ih =>
    cases ht : trimPacket decode packet with
    | error f0 =>
      refine ⟨[], by simp [mainLoop, ht], by simp [mainLoop, ht], by simp, by simp [mainLoop, ht], ?_⟩
      intro f hf
      simp only [mainLoop, ht, Option.some.injEq] at hf
      exact ⟨packet, by simp, Or.inl (by rw [← hf, ht])⟩
    | ok p =>
      cases hr : w.refuse w.records (recordOf packet p).ci (recordOf packet p).data with
      | some msg =>
        have hrun : mainLoop decode (packet :: rest) w
            = (w, some (Failure.error (Err.library msg))) := by
          simp only [recordOf] at hr
          simp [mainLoop, ht, writeTrimmedPacket, Writer.WritePacket, hr]
        rw [hrun]
        refine ⟨[], by simp, rfl, by simp, by simp, ?_⟩
        intro f hf
        simp only [Option.some.injEq] at hf
        exact ⟨packet, by simp, Or.inr ⟨p, msg, ht, by simpa using hr, hf.symm⟩⟩
      | none =>
        have hrun : mainLoop decode (packet :: rest) w
            = mainLoop decode rest { w with records := w.records ++ [recordOf packet p] } := by
          simp only [recordOf] at hr
          simp [mainLoop, ht, writeTrimmedPacket, Writer.WritePacket, hr, recordOf]
        obtain ⟨written, hrec, href, hall, hdone, hfail⟩ :=
          ih { w with records := w.records ++ [recordOf packet p] }
        rw [hrun]
        refine ⟨recordOf packet p :: written, ?_, href, ?_, ?_, ?_⟩
        · simpa using hrec
        · simp only [List.length_cons, List.take_succ_cons]
          exact List.Forall₂.cons ⟨p, ht, rfl⟩ hall
        · intro h
          simp [hdone h]
        · intro f hf
          obtain ⟨q, hq, hcase⟩ := hfail f hf
          refine ⟨q, by simpa using hq, ?_⟩
          simpa using hcase

/-- C13, at three packets the second of which cannot be trimmed: one record is
written, that of the first packet, and the run stops. -/
theorem mainLoop_sequential_witness :
    (∃ written : List Record,
      (mainLoop noDecode [exPacket, exPacketBroken, exPacketARP] exWriter).1.records
        = exWriter.records ++ written ∧
      (mainLoop noDecode [exPacket, exPacketBroken, exPacketARP] exWriter).1.refuse
        = exWriter.refuse ∧
      List.Forall₂
        (fun packet r => ∃ p, trimPacket noDecode packet = .ok p ∧ r = recordOf packet p)
        ([exPacket, exPacketBroken, exPacketARP].take written.length) written ∧
      ((mainLoop noDecode [exPacket, exPacketBroken, exPacketARP] exWriter).2 = none →
        written.length = [exPacket, exPacketBroken, exPacketARP].length) ∧
      (∀ f, (mainLoop noDecode [exPacket, exPacketBroken, exPacketARP] exWriter).2 = some f →
        ∃ packet, [exPacket, exPacketBroken, exPacketARP][written.length]? = some packet ∧
          (trimPacket noDecode packet = .error f ∨
            ∃ p msg, trimPacket noDecode packet = .ok p ∧
              exWriter.refuse (exWriter.records ++ written) (recordOf packet p).ci
                (recordOf packet p).data = some msg ∧
              f = Failure.error (Err.library msg)))) ∧
    (mainLoop noDecode [exPacket, exPacketBroken, exPacketARP] exWriter).1.records.length = 1 ∧
    (mainLoop noDecode [exPacket, exPacketBroken, exPacketARP] exWriter).2.isSome = true ∧
    (mainLoop noDecode [exPacket, exPacketARP] exWriter).1.records.length = 2 ∧
    (mainLoop noDecode [exPacket, exPacketARP] exWriter).2.isNone = true :=
  ⟨mainLoop_sequential noDecode [exPacket, exPacketBroken, exPacketARP] exWriter,
    rfl, rfl, rfl, rfl⟩

/-! ## What the Boundary Selector returns in every case -/

/-- The serializable view of a layer stands for that layer. -/
theorem assertSerializable_source (l : Layer) (s : SerializableLayer)
    (h : assertSerializable l = some s) : s.source = l := by
  cases l with
  | linuxSLL x =>
    simp only [assertSerializable, Option.some.injEq] at h
    subst h
    rfl
  | lib x =>
    cases hx : x.SerializeTo with
    | none => simp [assertSerializable, hx] at h
    | some enc =>
      simp only [assertSerializable, hx, Option.some.injEq] at h
      subst h
      rfl

/-- Retained layers that are the serializable views of some layers stand for
exactly those layers. -/
theorem source_of_views (ls : List SerializableLayer) (ts : List Layer)
    (h : ls.map some = ts.map assertSerializable) : ls.map SerializableLayer.source = ts := by
  induction ls generalizing ts with
  | nil =>
    cases ts with
    | nil => rfl
    | cons t ts => simp at h
  | cons s ls ih =>
    cases ts with
    | nil => simp at h
    | cons t ts =>
      simp only [List.map_cons, List.cons.injEq] at h
      simp only [List.map_cons, List.cons.injEq]
      exact ⟨assertSerializable_source t s h.1.symm, ih ts h.2⟩

/-- The loop retains the serializable views of the leading layers; when it
returns an error, the layer right after them has no encoding and is the one the
error names. -/
theorem filterLoop_leading (layers : List Layer) :
    (filterLoop layers []).1.map some
      = (layers.take (filterLoop layers []).1.length).map assertSerializable ∧
    (∀ err, (filterLoop layers []).2 = some err →
      ∃ bad, layers[(filterLoop layers []).1.length]? = some bad ∧
        assertSerializable bad = none ∧ err = Err.couldNotSerialize bad) := by
  induction layers with
  | nil => simp [filterLoop]
  | cons l rest ih =>
    cases hs : assertSerializable l with
    | none =>
      refine ⟨by simp [filterLoop, hs], ?_⟩
      intro err herr
      simp only [filterLoop, hs, Option.some.injEq] at herr
      exact ⟨l, by simp [filterLoop, hs], hs, herr.symm⟩
    | some s =>
      by_cases ht : isTransport l.LayerType = true
      · refine ⟨by simp [filterLoop, hs, ht], ?_⟩
        intro err herr
        simp [filterLoop, hs, ht] at herr
      · have ht2 : isTransport l.LayerType = false := by simpa using ht
        have hrun : filterLoop (l :: rest) []
            = (s :: (filterLoop rest []).1, (filterLoop rest []).2) := by
          simp only [filterLoop, hs, ht2, Bool.false_eq_true, if_false, List.nil_append]
          rw [filterLoop_acc]
          rfl
        rw [hrun]
        refine ⟨by simp [hs, ih.1], ?_⟩
        intro err herr
        obtain ⟨bad, hbad, hnone, herr2⟩ := ih.2 err herr
        exact ⟨bad, by simpa using hbad, hnone, herr2⟩

/-- In a list of layer types that stops only at its end, every type but the
last is neither TCP nor UDP. -/
theorem stopsOnlyAtEnd_inner (ts : List LayerType) (h : stopsOnlyAtEnd ts = true)
    (pre post : List LayerType) (t : LayerType) (hsplit : ts = pre ++ t :: post)
    (hpost : post ≠ []) : isTransport t = false := by
  induction pre generalizing ts with
  | nil =>
    cases post with
    | nil => exact absurd rfl hpost
    | cons y ys =>
      subst hsplit
      simp only [List.nil_append, stopsOnlyAtEnd, Bool.and_eq_true, Bool.not_eq_true'] at h
      exact h.1
  | cons x pre ih =>
    subst hsplit
    cases hrest : pre ++ t :: post with
    | nil => simp at hrest
    | cons y ys =>
      simp only [List.cons_append, hrest, stopsOnlyAtEnd, Bool.and_eq_true,
        Bool.not_eq_true'] at h
      exact ih (y :: ys) h.2 hrest.symm

/-- C14. For every packet, error or not, what `filterLayers` returns is the
leading layers of the packet, layer for layer and in order, each as its
serializable view (the cooked-capture layer as the adapter wrapping it); it is
no longer than the layer sequence; a TCP or UDP layer can only be its last
element; and when an error is returned, the layer right after the retained ones
has no encoding and is the one the error names, so the retained layers are
exactly those in front of the first layer without encoding. -/
theorem filterLayers_retains_leading_layers (packet : Packet) :
    (filterLayers packet).1.map some
      = (packet.layers.take (filterLayers packet).1.length).map assertSerializable ∧
    (filterLayers packet).1.map SerializableLayer.source
      = packet.layers.take (filterLayers packet).1.length ∧
    (∀ s, assertSerializable (Layer.linuxSLL s) = some (SerializableLayer.sll { LinuxSLL := s })) ∧
    (filterLayers packet).1.length ≤ packet.layers.length ∧
    (∀ (pre post : List SerializableLayer) (x : SerializableLayer),
      (filterLayers packet).1 = pre ++ x :: post → post ≠ [] →
      x.LayerType ≠ LayerType.TCP ∧ x.LayerType ≠ LayerType.UDP) ∧
    (∀ err, (filterLayers packet).2 = some err →
      ∃ bad, packet.layers[(filterLayers packet).1.length]? = some bad ∧
        assertSerializable bad = none ∧ err = Err.couldNotSerialize bad) := by
  have hlead := filterLoop_leading packet.layers
  have hsrc := source_of_views _ _ hlead.1
  refine ⟨hlead.1, hsrc, fun s => rfl, ?_, ?_, hlead.2⟩
  · have hlen := congrArg List.length hsrc
    simp only [List.length_map, List.length_take, filterLayers] at hlen ⊢
    omega
  · intro pre post x hsplit hpost
    have hstop := filterLoop_stopsOnlyAtEnd packet.layers (filterLayers packet).1
      (filterLayers packet).2 rfl
    have := stopsOnlyAtEnd_inner _ hstop (pre.map SerializableLayer.LayerType)
      (post.map SerializableLayer.LayerType) x.LayerType (by rw [hsplit]; simp)
      (by simpa using hpost)
    exact (isTransport_false_iff _).mp this

/-- C14, at the packet Ethernet / undecodable rest / TCP: the Ethernet layer is
retained and the error names the layer after it. -/
theorem filterLayers_retains_leading_layers_witness :
    ((filterLayers exPacketBroken).1.map some
      = (exPacketBroken.layers.take (filterLayers exPacketBroken).1.length).map
          assertSerializable ∧
    (filterLayers exPacketBroken).1.map SerializableLayer.source
      = exPacketBroken.layers.take (filterLayers exPacketBroken).1.length ∧
    (∀ s, assertSerializable (Layer.linuxSLL s) = some (SerializableLayer.sll { LinuxSLL := s })) ∧
    (filterLayers exPacketBroken).1.length ≤ exPacketBroken.layers.length ∧
    (∀ (pre post : List SerializableLayer) (x : SerializableLayer),
      (filterLayers exPacketBroken).1 = pre ++ x :: post → post ≠ [] →
      x.LayerType ≠ LayerType.TCP ∧ x.LayerType ≠ LayerType.UDP) ∧
    (∀ err, (filterLayers exPacketBroken).2 = some err →
      ∃ bad, exPacketBroken.layers[(filterLayers exPacketBroken).1.length]? = some bad ∧
        assertSerializable bad = none ∧ err = Err.couldNotSerialize bad)) ∧
    (filterLayers exPacketBroken).1.length = 1 ∧
    (filterLayers exPacketBroken).2.isSome = true ∧
    (filterLayers exCooked).1.map SerializableLayer.source
      = [Layer.linuxSLL exSLL, Layer.lib exIPv4, Layer.lib exTCP] :=
  ⟨filterLayers_retains_leading_layers exPacketBroken, rfl, rfl, rfl⟩

/-! ## What the adapter writes and what it leaves -/

/-- A list of length `n + 1` is a first element followed by a list of length `n`. -/
theorem length_succ_split (l : Bytes) (n : Nat) (h : l.length = n + 1) :
    ∃ x t, l = x :: t ∧ t.length = n := by
  cases l with
  | nil => simp at h
  | cons x t => exact ⟨x, t, rfl, by simpa using h⟩

/-- A list of 16 elements, spelled out. -/
theorem bytes16 (l : Bytes) (h : l.length = 16) :
    ∃ f0 f1 f2 f3 f4 f5 f6 f7 f8 f9 f10 f11 f12 f13 f14 f15,
      l = [f0, f1, f2, f3, f4, f5, f6, f7, f8, f9, f10, f11, f12, f13, f14, f15] := by
  obtain ⟨f0, l0, rfl, h0⟩ := length_succ_split l 15 h
  obtain ⟨f1, l1, rfl, h1⟩ := length_succ_split l0 14 h0
  obtain ⟨f2, l2, rfl, h2⟩ := length_succ_split l1 13 h1
  obtain ⟨f3, l3, rfl, h3⟩ := length_succ_split l2 12 h2
  obtain ⟨f4, l4, rfl, h4⟩ := length_succ_split l3 11 h3
  obtain ⟨f5, l5, rfl, h5⟩ := length_succ_split l4 10 h4
  obtain ⟨f6, l6, rfl, h6⟩ := length_succ_split l5 9 h5
  obtain ⟨f7, l7, rfl, h7⟩ := length_succ_split l6 8 h6
  obtain ⟨f8, l8, rfl, h8⟩ := length_succ_split l7 7 h7
  obtain ⟨f9, l9, rfl, h9⟩ := length_succ_split l8 6 h8
  obtain ⟨f10, l10, rfl, h10⟩ := length_succ_split l9 5 h9
  obtain ⟨f11, l11, rfl, h11⟩ := length_succ_split l10 4 h10
  obtain ⟨f12, l12, rfl, h12⟩ := length_succ_split l11 3 h11
  obtain ⟨f13, l13, rfl, h13⟩ := length_succ_split l12 2 h12
  obtain ⟨f14, l14, rfl, h14⟩ := length_succ_split l13 1 h13
  obtain ⟨f15, l15, rfl, h15⟩ := length_succ_split l14 0 h14
  have hl : l15 = [] := List.length_eq_zero.mp h15
  subst hl
  exact ⟨f0, f1, f2, f3, f4, f5, f6, f7, f8, f9, f10, f11, f12, f13, f14, f15, rfl⟩

/-- The adapter on 16 bytes as found, for an address length from 2 to 8 and an
address of at least two bytes: bytes 8 to 13 stay as found. -/
theorem SerializeTo_found (a : SerializableLinuxSLL) (cap : Nat)
    (f0 f1 f2 f3 f4 f5 f6 f7 f8 f9 f10 f11 f12 f13 f14 f15 d0 d1 : Nat) (tl : Bytes)
    (hcap : 16 ≤ cap) (hL : 2 ≤ a.LinuxSLL.AddrLen ∧ a.LinuxSLL.AddrLen ≤ 8)
    (hD : a.LinuxSLL.Addr = d0 :: d1 :: tl) :
    a.SerializeTo
        (.ok ⟨[f0, f1, f2, f3, f4, f5, f6, f7, f8, f9, f10, f11, f12, f13, f14, f15], cap⟩) =
      .ok [a.LinuxSLL.PacketType % 65536 / 256 % 256, a.LinuxSLL.PacketType % 65536 % 256,
           a.LinuxSLL.AddrType / 256 % 256, a.LinuxSLL.AddrType % 256,
           a.LinuxSLL.AddrLen / 256 % 256, a.LinuxSLL.AddrLen % 256,
           (d1 + d0 * 256) % 65536 / 256 % 256, (d1 + d0 * 256) % 65536 % 256,
           f8, f9, f10, f11, f12, f13,
           a.LinuxSLL.EthernetType % 65536 / 256 % 256,
           a.LinuxSLL.EthernetType % 65536 % 256] := by
  have c2 : 2 ≤ cap := by omega
  have c4 : 4 ≤ cap := by omega
  have c6 : 6 ≤ cap := by omega
  have hstop : (a.LinuxSLL.AddrLen + 6) % 65536 = a.LinuxSLL.AddrLen + 6 := by omega
  have hb : 6 ≤ a.LinuxSLL.AddrLen + 6 ∧ a.LinuxSLL.AddrLen + 6 ≤ cap := ⟨by omega, by omega⟩
  have hw : 2 ≤ a.LinuxSLL.AddrLen := hL.1
  simp [SerializableLinuxSLL.SerializeTo, SerializableLinuxSLL.fill, PutUint16, Slice.window,
    Uint16, bind, Except.bind, pure, Except.pure, c2, c4, c6, hcap, hstop, hb, hw, hD]

/-- A list whose first two elements are known. -/
theorem of_take_two (l : Bytes) (x y : Nat) (h : l.take 2 = [x, y]) :
    ∃ t, l = x :: y :: t := by
  rcases l with _ | ⟨a, _ | ⟨b, t⟩⟩
  · simp at h
  · simp at h
  · simp only [List.take_succ_cons, List.take_zero, List.cons.injEq, and_true] at h
    exact ⟨t, by rw [h.1, h.2]⟩

/-- C15. For a cooked-capture layer with an address length from 2 to 8 whose
address holds at least two bytes, `SerializeTo` on the 16 bytes `PrependBytes`
handed out returns 16 bytes whose offsets 6-7 hold the first two address bytes
and whose offsets 8-13 are as they were found; any other layer with the same
packet type, address type, address length, protocol type and first two address
bytes serializes to the same bytes, whatever the rest of its address is. -/
theorem SerializeTo_writes_two_address_bytes (a : SerializableLinuxSLL) (found : Bytes)
    (cap : Nat) (hlen : found.length = 16) (hcap : 16 ≤ cap)
    (hL : 2 ≤ a.LinuxSLL.AddrLen ∧ a.LinuxSLL.AddrLen ≤ 8)
    (hA : 2 ≤ a.LinuxSLL.Addr.length)
    (hbyte : ∀ x ∈ a.LinuxSLL.Addr, x < 256) :
    ∃ out, a.SerializeTo (.ok ⟨found, cap⟩) = .ok out ∧
      out.length = 16 ∧
      (out.drop 6).take 2 = a.LinuxSLL.Addr.take 2 ∧
      (out.drop 8).take 6 = (found.drop 8).take 6 ∧
      ∀ a2 : SerializableLinuxSLL,
        a2.LinuxSLL.PacketType = a.LinuxSLL.PacketType →
        a2.LinuxSLL.AddrType = a.LinuxSLL.AddrType →
        a2.LinuxSLL.AddrLen = a.LinuxSLL.AddrLen →
        a2.LinuxSLL.EthernetType = a.LinuxSLL.EthernetType →
        a2.LinuxSLL.Addr.take 2 = a.LinuxSLL.Addr.take 2 →
        a2.SerializeTo (.ok ⟨found, cap⟩) = .ok out := by
  obtain ⟨f0, f1, f2, f3, f4, f5, f6, f7, f8, f9, f10, f11, f12, f13, f14, f15, rfl⟩ :=
    bytes16 found hlen
  rcases hD : a.LinuxSLL.Addr with _ | ⟨d0, _ | ⟨d1, tl⟩⟩
  · simp [hD] at hA
  · simp [hD] at hA
  · have hd0 : d0 < 256 := hbyte d0 (by simp [hD])
    have hd1 : d1 < 256 := hbyte d1 (by simp [hD])
    refine ⟨_, SerializeTo_found a cap f0 f1 f2 f3 f4 f5 f6 f7 f8 f9 f10 f11 f12 f13 f14 f15
      d0 d1 tl hcap hL hD, by simp, ?_, by simp, ?_⟩
    · simp only [List.drop_succ_cons, List.drop_zero, List.take_succ_cons, List.take_zero,
        List.cons.injEq, and_true]
      constructor <;> omega
    · intro a2 hP hT hLen hE hAddr
      obtain ⟨tl2, hD2⟩ := of_take_two a2.LinuxSLL.Addr d0 d1 (by simpa using hAddr)
      rw [SerializeTo_found a2 cap f0 f1 f2 f3 f4 f5 f6 f7 f8 f9 f10 f11 f12 f13 f14 f15
        d0 d1 tl2 hcap (by rw [hLen]; exact hL) hD2, hP, hT, hLen, hE]

/-- C15, at the sample header with the six-byte address, on a buffer that is
not zero-filled, against a layer with a different address tail. -/
theorem SerializeTo_writes_two_address_bytes_witness :
    ∃ out, SerializableLinuxSLL.SerializeTo { LinuxSLL := exSLL }
        (.ok ⟨[1, 2, 3, 4, 5, 6, 7, 8, 9, 10, 11, 12, 13, 14, 15, 16], 16⟩) = .ok out ∧
      out.length = 16 ∧
      (out.drop 6).take 2 = exSLL.Addr.take 2 ∧
      (out.drop 8).take 6
        = (([1, 2, 3, 4, 5, 6, 7, 8, 9, 10, 11, 12, 13, 14, 15, 16] : Bytes).drop 8).take 6 ∧
      ∀ a2 : SerializableLinuxSLL,
        a2.LinuxSLL.PacketType = exSLL.PacketType →
        a2.LinuxSLL.AddrType = exSLL.AddrType →
        a2.LinuxSLL.AddrLen = exSLL.AddrLen →
        a2.LinuxSLL.EthernetType = exSLL.EthernetType →
        a2.LinuxSLL.Addr.take 2 = exSLL.Addr.take 2 →
        a2.SerializeTo (.ok ⟨[1, 2, 3, 4, 5, 6, 7, 8, 9, 10, 11, 12, 13, 14, 15, 16], 16⟩)
          = .ok out :=
  SerializeTo_writes_two_address_bytes { LinuxSLL := exSLL }
    [1, 2, 3, 4, 5, 6, 7, 8, 9, 10, 11, 12, 13, 14, 15, 16] 16 rfl (le_refl _)
    ⟨by decide, by decide⟩ (by decide) (by decide)

/-- On the non-zero buffer of the witness the adapter returns the found bytes
at offsets 8 to 13, and a layer differing only in its address tail returns the
same 16 bytes. -/
theorem SerializeTo_found_sample :
    SerializableLinuxSLL.SerializeTo { LinuxSLL := exSLL }
        (.ok ⟨[1, 2, 3, 4, 5, 6, 7, 8, 9, 10, 11, 12, 13, 14, 15, 16], 16⟩)
      = .ok [0, 0, 0, 1, 0, 6, 0, 17, 9, 10, 11, 12, 13, 14, 8, 0] ∧
    SerializableLinuxSLL.SerializeTo { LinuxSLL := { exSLL with Addr := [0, 17, 1, 2, 3, 4] } }
        (.ok ⟨[1, 2, 3, 4, 5, 6, 7, 8, 9, 10, 11, 12, 13, 14, 15, 16], 16⟩)
      = .ok [0, 0, 0, 1, 0, 6, 0, 17, 9, 10, 11, 12, 13, 14, 8, 0] :=
  ⟨rfl, rfl⟩

end Scrubpcap
